import Mathlib

/-!
Shallow embedding of the dotdep action library (Deno/TypeScript).

The embedding models the four built-in actions (Command, Download, Remove,
Symlink), the Action/RevertibleAction contracts, the revert-set builder,
and the path utilities.  The filesystem is an association list of paths to
entries (files with content and mtime, directories, symbolic links); the
network, the system clock, date parsing and process spawning are oracles
carried in environment records, mirroring the platform collaborators the
code awaits.  Every definition is translated from the repository's source.
-/

namespace Dotdep

/-- `ActionStatus` from `types.ts`: the three-way result taxonomy. -/
inductive ActionStatus where
  | Success
  | Error
  | Skip
deriving Repr, DecidableEq

/-- `ActionResult` from `types.ts`: a status plus an optional detail string. -/
structure ActionResult where
  status : ActionStatus
  detail : Option String := none
deriving Repr, DecidableEq

/-- A filesystem entry: a regular file (content bytes, optional mtime),
a directory, or a symbolic link storing its target path. -/
inductive Entry where
  | file (content : String) (mtime : Option Int)
  | dir
  | link (target : String)
deriving Repr, DecidableEq

/-- The filesystem: an association list from (resolved) paths to entries. -/
abbrev FS := List (String × Entry)

/-- Environment record: HOME (possibly unset), the current working directory,
the platform date parser (`new Date(s).getTime()`, `none` models NaN),
and the clock used as the mtime of newly written files. -/
structure Env where
  home : Option String
  cwd : String
  parseDate : String → Option Int
  now : Option Int

/-- Does the character list `s` start with the list `p`?  (Kernel-computable
replacement for the platform's prefix test.) -/
def charsStartWith : List Char → List Char → Bool
  | _, [] => true
  | [], _ :: _ => false
  | a :: as, b :: bs => a == b && charsStartWith as bs

/-- `String.startsWith`, computed on the underlying character lists. -/
def strStartsWith (s p : String) : Bool := charsStartWith s.data p.data

/-- `String.drop`, computed on the underlying character list. -/
def strDrop (s : String) (n : Nat) : String := String.mk (s.data.drop n)

/-- Split a character list at a separator character. -/
def splitChars (sep : Char) : List Char → List (List Char)
  | [] => [[]]
  | c :: cs =>
    let r := splitChars sep cs
    if c == sep then [] :: r
    else
      match r with
      | [] => [[c]]
      | g :: gs => (c :: g) :: gs

/-- `String.splitOn "/"`, computed on the underlying character list. -/
def splitOnSlash (s : String) : List String :=
  (splitChars '/' s.data).map String.mk

/-- ASCII whitespace as JavaScript's `trim` sees it in this development's
strings. -/
def isWS (c : Char) : Bool := c == ' ' || c == '\t' || c == '\n' || c == '\r'

/-- `trim`, computed on the underlying character list. -/
def strTrim (s : String) : String :=
  String.mk (((s.data.dropWhile isWS).reverse.dropWhile isWS).reverse)

/-- `join` from the path library, normalization abstracted. -/
def joinPath (a b : String) : String := a ++ "/" ++ b

/-- `expandTilde` from `utils.ts`: expands a leading `~` using HOME.
An unset or empty HOME (falsy in TS) leaves the path unchanged. -/
def expandTilde (home : Option String) (path : String) : String :=
  if path = "" then path
  else
    match home with
    | none => path
    | some h =>
      if h = "" then path
      else if path = "~" then h
      else if strStartsWith path "~/" then joinPath h (strDrop path 2)
      else path

/-- `resolvePath` from `utils.ts` as the actions call it (no base
directory): tilde expansion, then resolution against the cwd. -/
def resolvePath (env : Env) (path : String) : String :=
  let expanded := expandTilde env.home path
  if strStartsWith expanded "/" then expanded else joinPath env.cwd expanded

/-- `dirname` from the path library: everything before the final slash. -/
def dirname (p : String) : String :=
  match (splitOnSlash p).dropLast with
  | [] => "."
  | [""] => "/"
  | parts => String.intercalate "/" parts

/-- Follow symbolic links from `p`, with fuel bounding chain length
(a loop exhausts the fuel, modelling the OS link-loop error as absence).
Returns the canonical path together with the final non-link entry. -/
def resolveEntry (fs : FS) : Nat → String → Option (String × Entry)
  | 0, _ => none
  | n + 1, p =>
    match List.lookup p fs with
    | some (Entry.link t) => resolveEntry fs n t
    | some e => some (p, e)
    | none => none

/-- Fuel sufficient to follow any loop-free link chain in `fs`. -/
def fuelFor (fs : FS) : Nat := fs.length + 1

/-- `exists` from `std/fs` (built on `Deno.stat`): follows symlinks, so a
dangling link reports as absent. -/
def existsFs (fs : FS) (p : String) : Bool := (resolveEntry fs (fuelFor fs) p).isSome

/-- `Deno.realPath`: the canonical path of the resolved entry. -/
def realPathFs (fs : FS) (p : String) : Option String :=
  (resolveEntry fs (fuelFor fs) p).map Prod.fst

/-- `Deno.stat(...).mtime`: follows links; `some mt` is the resolved
entry's mtime field (`none` inside models a null mtime or a non-file). -/
def statMtimeFs (fs : FS) (p : String) : Option (Option Int) :=
  (resolveEntry fs (fuelFor fs) p).map (fun pe =>
    match pe.2 with
    | Entry.file _ m => m
    | _ => none)

/-- `Deno.lstat(...).isDirectory`: does not follow links. -/
def isDirectoryFs (fs : FS) (p : String) : Bool :=
  match List.lookup p fs with
  | some Entry.dir => true
  | _ => false

/-- `Deno.remove(path, { recursive })`: operates on the entry itself (a
symlink is removed, not followed).  Errors when the path is absent, or is
a directory and removal is not permitted (non-recursive on a non-empty
directory). -/
def removeFs (fs : FS) (p : String) (recursive : Bool) : Except String FS :=
  match List.lookup p fs with
  | none => Except.error ("No such file or directory: " ++ p)
  | some Entry.dir =>
    if recursive then
      Except.ok (fs.filter (fun e => !(e.1 == p || strStartsWith e.1 (p ++ "/"))))
    else if fs.any (fun e => strStartsWith e.1 (p ++ "/")) then
      Except.error ("Directory not empty: " ++ p)
    else
      Except.ok (fs.filter (fun e => e.1 != p))
  | some _ => Except.ok (fs.filter (fun e => e.1 != p))

/-- `Deno.mkdir(p, { recursive: true })`: create the directory and its
missing ancestors (fuel bounds the ancestor chain). -/
def mkdirRec (fs : FS) : Nat → String → FS
  | 0, _ => fs
  | n + 1, p =>
    if (List.lookup p fs).isSome then fs
    else (p, Entry.dir) :: mkdirRec fs n (dirname p)

/-- The path a write to `p` lands on: `Deno.writeFile` follows an existing
link chain at the destination. -/
def writeTargetPath (fs : FS) : Nat → String → String
  | 0, p => p
  | n + 1, p =>
    match List.lookup p fs with
    | some (Entry.link t) => writeTargetPath fs n t
    | _ => p

/-- `Deno.writeFile`: (over)write the file at the write target of `p`. -/
def writeFileFs (fs : FS) (p : String) (content : String) (mtime : Option Int) : FS :=
  let q := writeTargetPath fs (fuelFor fs) p
  (q, Entry.file content mtime) :: fs.filter (fun e => e.1 != q)

/-- `Deno.symlink(src, dest)`: fails with AlreadyExists when any entry
(also a dangling link) sits at `dest`. -/
def symlinkFs (fs : FS) (src dest : String) : Except String FS :=
  if (List.lookup dest fs).isSome then
    Except.error ("File exists: " ++ dest)
  else
    Except.ok ((dest, Entry.link src) :: fs)

/-! ## Remove action (`actions/remove.ts`) -/

/-- Configuration of `RemoveAction`. -/
structure RemoveAction where
  path : String
  recursive : Bool
deriving Repr, DecidableEq

/-- `RemoveAction.getPreflightResult`. -/
def RemoveAction.getPreflightResult (env : Env) (fs : FS) (a : RemoveAction) : ActionResult :=
  let resolvedPath := resolvePath env a.path
  if !existsFs fs resolvedPath then
    { status := ActionStatus.Skip, detail := some ("File not found: " ++ a.path) }
  else if isDirectoryFs fs resolvedPath && !a.recursive then
    { status := ActionStatus.Error
      detail := some ("Path is a directory (use recursive option to remove): " ++ a.path) }
  else
    { status := ActionStatus.Success }

/-- `RemoveAction.plan`. -/
def RemoveAction.plan (env : Env) (fs : FS) (a : RemoveAction) : ActionResult :=
  RemoveAction.getPreflightResult env fs a

/-- `RemoveAction.apply`: returns the result together with the filesystem
after the call (unchanged on every non-mutating path). -/
def RemoveAction.apply (env : Env) (fs : FS) (a : RemoveAction) : ActionResult × FS :=
  let state := RemoveAction.getPreflightResult env fs a
  if state.status ≠ ActionStatus.Success then (state, fs)
  else
    let resolvedPath := resolvePath env a.path
    match removeFs fs resolvedPath a.recursive with
    | Except.ok fs2 => (state, fs2)
    | Except.error msg =>
      ({ status := ActionStatus.Error, detail := some ("An error occurred: " ++ msg) }, fs)

/-! ## Symlink action (`actions/symlink.ts`) -/

/-- Configuration of `SymlinkAction`. -/
structure SymlinkAction where
  src : String
  dest : String
  overwrite : Bool
deriving Repr, DecidableEq

/-- `SymlinkAction.getPreflightResult`. -/
def SymlinkAction.getPreflightResult (env : Env) (fs : FS) (a : SymlinkAction) : ActionResult :=
  let resolvedSrc := resolvePath env a.src
  let resolvedDest := resolvePath env a.dest
  let srcExists := existsFs fs resolvedSrc
  let destExists := existsFs fs resolvedDest
  let isSameLink := destExists &&
    (match realPathFs fs resolvedDest, realPathFs fs resolvedSrc with
     | some x, some y => x == y
     | _, _ => false)
  if isSameLink then
    { status := ActionStatus.Skip, detail := some "Symlink already exists and is correct." }
  else if !srcExists then
    { status := ActionStatus.Error, detail := some ("Source not found: " ++ a.src) }
  else if destExists && !a.overwrite then
    { status := ActionStatus.Error
      detail := some ("Destination already exists and is not the correct symlink: " ++ a.dest) }
  else
    { status := ActionStatus.Success }

/-- `SymlinkAction.plan`. -/
def SymlinkAction.plan (env : Env) (fs : FS) (a : SymlinkAction) : ActionResult :=
  SymlinkAction.getPreflightResult env fs a

/-- `SymlinkAction.apply`: preflight, ensure the destination's parent
directory, remove an existing destination (recursively), create the link.
A failing step returns Error together with the filesystem as mutated so
far. -/
def SymlinkAction.apply (env : Env) (fs : FS) (a : SymlinkAction) : ActionResult × FS :=
  let state := SymlinkAction.getPreflightResult env fs a
  if state.status ≠ ActionStatus.Success then (state, fs)
  else
    let resolvedSrc := resolvePath env a.src
    let resolvedDest := resolvePath env a.dest
    let destDir := dirname resolvedDest
    let fs1 := if !existsFs fs destDir then mkdirRec fs (destDir.length + 1) destDir else fs
    let step2 := if existsFs fs1 resolvedDest then removeFs fs1 resolvedDest true else Except.ok fs1
    match step2 with
    | Except.error msg =>
      ({ status := ActionStatus.Error, detail := some ("An error occurred: " ++ msg) }, fs1)
    | Except.ok fs2 =>
      match symlinkFs fs2 resolvedSrc resolvedDest with
      | Except.error msg =>
        ({ status := ActionStatus.Error, detail := some ("An error occurred: " ++ msg) }, fs2)
      | Except.ok fs3 => (state, fs3)

/-! ## Download action (`actions/download.ts`) -/

/-- A platform HTTP response: ok flag, status code and text, the
Last-Modified header when present, and the body bytes. -/
structure HttpResponse where
  ok : Bool
  status : Nat
  statusText : String
  lastModified : Option String
  body : String
deriving Repr, DecidableEq

/-- The network oracle: responses of HEAD and GET requests by URL; an
`Except.error` models a thrown network exception with its message. -/
structure Net where
  head : String → Except String HttpResponse
  get : String → Except String HttpResponse

/-- Configuration of `DownloadAction`. -/
structure DownloadAction where
  url : String
  dest : String
  overwrite : Bool
  timestamping : Bool
deriving Repr, DecidableEq

/-- `DownloadAction.getPreflightResult`: overwrite check, HEAD probe, then
the timestamping comparison. -/
def DownloadAction.getPreflightResult (env : Env) (net : Net) (fs : FS)
    (a : DownloadAction) : ActionResult :=
  let resolvedDest := resolvePath env a.dest
  if existsFs fs resolvedDest && !a.overwrite then
    { status := ActionStatus.Error, detail := some ("Destination already exists: " ++ a.dest) }
  else
    match net.head a.url with
    | Except.error msg =>
      { status := ActionStatus.Error, detail := some ("Failed to check URL: " ++ msg) }
    | Except.ok res =>
      if !res.ok then
        { status := ActionStatus.Error
          detail := some ("URL is not available: " ++ toString res.status ++ " " ++ res.statusText) }
      else
        match res.lastModified with
        | none => { status := ActionStatus.Success }
        | some lm =>
          if existsFs fs resolvedDest && a.timestamping then
            match env.parseDate lm with
            | none => { status := ActionStatus.Success }
            | some remoteTime =>
              match statMtimeFs fs resolvedDest with
              | none => { status := ActionStatus.Success }
              | some localTime =>
                match localTime with
                | none => { status := ActionStatus.Success }
                | some lt =>
                  if lt ≥ remoteTime then
                    { status := ActionStatus.Skip, detail := some "Local file is up-to-date." }
                  else
                    { status := ActionStatus.Success }
          else
            { status := ActionStatus.Success }

/-- `DownloadAction.plan`. -/
def DownloadAction.plan (env : Env) (net : Net) (fs : FS) (a : DownloadAction) : ActionResult :=
  DownloadAction.getPreflightResult env net fs a

/-- `DownloadAction.apply`: preflight, ensure the destination's parent
directory, GET the URL, write the body.  A failing step returns Error
together with the filesystem as mutated so far. -/
def DownloadAction.apply (env : Env) (net : Net) (fs : FS) (a : DownloadAction) :
    ActionResult × FS :=
  let state := DownloadAction.getPreflightResult env net fs a
  if state.status ≠ ActionStatus.Success then (state, fs)
  else
    let resolvedDest := resolvePath env a.dest
    let dir := dirname resolvedDest
    let fs1 := if !existsFs fs dir then mkdirRec fs (dir.length + 1) dir else fs
    match net.get a.url with
    | Except.error msg =>
      ({ status := ActionStatus.Error, detail := some ("An error occurred: " ++ msg) }, fs1)
    | Except.ok res =>
      if !res.ok then
        ({ status := ActionStatus.Error
           detail := some ("Failed to fetch: " ++ toString res.status ++ " " ++ res.statusText) },
         fs1)
      else
        ({ status := ActionStatus.Success }, writeFileFs fs1 resolvedDest res.body env.now)

/-! ## Command action (`actions/command.ts`) -/

/-- `OutputMode` from `command.ts`. -/
inductive OutputMode where
  | Inherit
  | Capture
deriving Repr, DecidableEq

/-- The configuration handed to `Deno.Command(...).spawn()`. -/
structure SpawnCfg where
  cmd : String
  args : List String
  stdout : OutputMode
  stderr : OutputMode
  env : List (String × String)
  cwd : Option String
deriving Repr, DecidableEq

/-- The awaited output of a spawned process. -/
structure ProcOutput where
  code : Int
  stdout : String
  stderr : String
deriving Repr, DecidableEq

/-- The process oracle: `whichOk` is the `which` probe used by
`isCommandAvailable`; `run` spawns a process and awaits its output
(`Except.error` models a thrown spawn exception). -/
structure ProcEnv where
  whichOk : String → Bool
  run : SpawnCfg → Except String ProcOutput

/-- Configuration of `CommandAction`; the NonEmptyArray command vector is
modelled as its head `cmd0` plus the remaining `args`. -/
structure CommandAction where
  cmd0 : String
  args : List String
  stdout : OutputMode
  stderr : OutputMode
  env : List (String × String)
  cwd : Option String
deriving Repr, DecidableEq

/-- `CommandAction.getPreflightResult`: probe the executable via `which`. -/
def CommandAction.getPreflightResult (env : Env) (pr : ProcEnv) (a : CommandAction) :
    ActionResult :=
  if !pr.whichOk (expandTilde env.home a.cmd0) then
    { status := ActionStatus.Error, detail := some ("Command not found: " ++ a.cmd0) }
  else
    { status := ActionStatus.Success }

/-- `CommandAction.plan`. -/
def CommandAction.plan (env : Env) (pr : ProcEnv) (a : CommandAction) : ActionResult :=
  CommandAction.getPreflightResult env pr a

/-- The spawn configuration `CommandAction.apply` builds (a falsy cwd is
left unset, as in `this.cwd ? resolvePath(this.cwd) : undefined`). -/
def CommandAction.spawnCfg (env : Env) (a : CommandAction) : SpawnCfg :=
  { cmd := expandTilde env.home a.cmd0
    args := a.args
    stdout := a.stdout
    stderr := a.stderr
    env := a.env
    cwd :=
      match a.cwd with
      | some c => if c = "" then none else some (resolvePath env c)
      | none => none }

/-- `CommandAction.apply`: preflight, spawn, then build the result from
the exit code and the captured and trimmed stdout/stderr texts. -/
def CommandAction.apply (env : Env) (pr : ProcEnv) (a : CommandAction) : ActionResult :=
  let state := CommandAction.getPreflightResult env pr a
  if state.status ≠ ActionStatus.Success then state
  else
    match pr.run (CommandAction.spawnCfg env a) with
    | Except.error msg =>
      { status := ActionStatus.Error, detail := some ("An error occurred: " ++ msg) }
    | Except.ok out =>
      let sText := strTrim out.stdout
      let d1 := if a.stdout == OutputMode.Capture && sText != "" then
          "stdout:\n" ++ sText ++ "\n" else ""
      let eText := strTrim out.stderr
      let d2 := if a.stderr == OutputMode.Capture && eText != "" then
          "stderr:\n" ++ eText ++ "\n" else ""
      let detail := strTrim (d1 ++ d2)
      { status := if out.code == 0 then ActionStatus.Success else ActionStatus.Error
        detail := if detail = "" then none else some detail }

/-! ## Action union, capability check and revert-set builder
(`types.ts`, `utils.ts`) -/

/-- The polymorphic `Action`: the four built-in implementations, with the
plain and the revertible Command variants as the two classes of
`command.ts`. -/
inductive Action where
  | removeA : RemoveAction → Action
  | symlinkA : SymlinkAction → Action
  | downloadA : DownloadAction → Action
  | commandA : CommandAction → Action
  | revertibleCommandA : CommandAction → String × List String → Action
deriving Repr, DecidableEq

/-- `getRevertAction()` of the classes that define it; `none` for the
classes that do not (RemoveAction and plain CommandAction). -/
def Action.getRevertAction? : Action → Option Action
  | Action.symlinkA a => some (Action.removeA (RemoveAction.mk a.dest false))
  | Action.downloadA a => some (Action.removeA (RemoveAction.mk a.dest false))
  | Action.revertibleCommandA a rc =>
    some (Action.commandA (CommandAction.mk rc.1 rc.2 a.stdout a.stderr a.env a.cwd))
  | _ => none

/-- `isRevertibleAction` from `types.ts`: the duck-capability test (the
object exposes a callable `getRevertAction`) holds exactly for the classes
where `getRevertAction?` is defined. -/
def isRevertibleAction (a : Action) : Bool := (Action.getRevertAction? a).isSome

/-- `getRevertActions` from `utils.ts`: filter to the revertible actions,
map each through `getRevertAction()`, reverse. -/
def getRevertActions (actions : List Action) : List Action :=
  ((actions.filter isRevertibleAction).filterMap Action.getRevertAction?).reverse

/-! ## Helper lemmas -/

/-- A path that `exists` reports present has an entry in the listing. -/
theorem lookup_isSome_of_existsFs (fs : FS) (p : String)
    (h : existsFs fs p = true) : (List.lookup p fs).isSome := by
  unfold existsFs fuelFor resolveEntry at h
  cases hl : List.lookup p fs with
  | none => rw [hl] at h; simp at h
  | some e => simp

/-- Filtering drops every binding of a key on which the predicate fails. -/
theorem lookup_filter_drop (fs : FS) (p : String) (g : String × Entry → Bool)
    (h : ∀ e : String × Entry, e.1 = p → g e = false) :
    List.lookup p (fs.filter g) = none := by
  induction fs with
  | nil => rfl
  | cons e es ih =>
    by_cases he : g e = true
    · have h1 : e.1 ≠ p := by
        intro hp
        rw [h e hp] at he
        exact Bool.false_ne_true he
      have h2 : (p == e.1) = false := by
        simp only [beq_eq_false_iff_ne, ne_eq]
        exact fun hp => h1 hp.symm
      simp [List.filter_cons, he, List.lookup, h2, ih]
    · simp [List.filter_cons, he, ih]

/-- Filtering on a key-difference test leaves lookups of other keys
unchanged. -/
theorem lookup_filter_ne (fs : FS) (p q : String) (hne : q ≠ p) :
    List.lookup q (fs.filter (fun e => e.1 != p)) = List.lookup q fs := by
  induction fs with
  | nil => rfl
  | cons e es ih =>
    by_cases hk : e.1 = p
    · have h1 : (e.1 != p) = false := by simp [hk]
      have h2 : (q == e.1) = false := by
        simp only [beq_eq_false_iff_ne, ne_eq]
        intro hq
        exact hne (hq.trans hk)
      simp [List.filter_cons, h1, List.lookup, h2, ih]
    · have h1 : (e.1 != p) = true := by simp [hk]
      simp [List.filter_cons, h1, List.lookup, ih]

/-- A successful link resolution ends at a real entry of the listing. -/
theorem lookup_of_resolveEntry (fs : FS) :
    ∀ (n : Nat) (p q : String) (e : Entry),
      resolveEntry fs n p = some (q, e) → List.lookup q fs = some e := by
  intro n
  induction n with
  | zero =>
    intro p q e h
    simp [resolveEntry] at h
  | succ n ih =>
    intro p q e h
    unfold resolveEntry at h
    cases hl : List.lookup p fs with
    | none => rw [hl] at h; exact Option.noConfusion h
    | some e0 =>
      rw [hl] at h
      cases e0 with
      | link t => exact ih t q e h
      | file c m =>
        have h1 : p = q ∧ Entry.file c m = e := by
          have h2 := Option.some.inj h
          exact ⟨congrArg Prod.fst h2, congrArg Prod.snd h2⟩
        rw [← h1.2, ← h1.1]
        exact hl
      | dir =>
        have h1 : p = q ∧ Entry.dir = e := by
          have h2 := Option.some.inj h
          exact ⟨congrArg Prod.fst h2, congrArg Prod.snd h2⟩
        rw [← h1.2, ← h1.1]
        exact hl

/-- A non-link entry resolves to itself in one step. -/
theorem resolveEntry_of_lookup_nonlink (fs : FS) (p : String) (e : Entry)
    (hl : List.lookup p fs = some e) (hne : ∀ t, e ≠ Entry.link t) :
    resolveEntry fs (fuelFor fs) p = some (p, e) := by
  unfold fuelFor resolveEntry
  rw [hl]
  cases e with
  | file c m => rfl
  | dir => rfl
  | link t => exact absurd rfl (hne t)

/-- A nonempty string prefix keeps a concatenation nonempty. -/
theorem append_ne_empty_left (s t : String) (h : s.length ≠ 0) : s ++ t ≠ "" := by
  intro hc
  have h2 := congrArg String.length hc
  rw [String.length_append] at h2
  simp only [String.length_empty] at h2
  omega

/-- A concrete environment shared by the closed witness statements. -/
def cEnv : Env :=
  { home := none, cwd := "/", parseDate := fun _ => some 10, now := some 99 }

/-! ## C3 -/

/-- C3: `getRevertActions(actions)` keeps exactly the elements passing the
`isRevertibleAction` capability check, maps each survivor through
`getRevertAction()`, and reverses the result; on
`[A (revertible, revert rA), B (non-revertible), C (revertible, revert rC)]`
it returns `[rC, rA]`, and on the empty input the empty sequence. -/
theorem c3_getRevertActions_filter_map_reverse :
    (∀ actions : List Action,
      getRevertActions actions
        = ((actions.filter isRevertibleAction).map
            (fun a => (Action.getRevertAction? a).getD a)).reverse)
    ∧ getRevertActions
        [Action.symlinkA (SymlinkAction.mk "s" "d" false),
         Action.removeA (RemoveAction.mk "x" false),
         Action.downloadA (DownloadAction.mk "u" "e" false false)]
        = [Action.removeA (RemoveAction.mk "e" false),
           Action.removeA (RemoveAction.mk "d" false)]
    ∧ getRevertActions [] = [] := by
  refine ⟨?_, rfl, rfl⟩
  intro actions
  unfold getRevertActions
  congr 1
  induction actions with
  | nil => rfl
  | cons a as ih =>
    by_cases h : isRevertibleAction a = true
    · have hg : (Action.getRevertAction? a).isSome := h
      cases hgs : Action.getRevertAction? a with
      | none => rw [hgs] at hg; simp at hg
      | some b =>
        simp [List.filter_cons, h, List.filterMap_cons, hgs, ih]
    · simp [List.filter_cons, h, ih]

/-! ## C4 -/

/-- C4 counterexample: contrary to the claim, a `RemoveAction` exposes no
`getRevertAction` at all — it fails the revertibility capability check, so
`getRevertAction()` for Remove cannot return anything. -/
theorem c4_counterexample_remove_not_revertible :
    isRevertibleAction (Action.removeA (RemoveAction.mk "/tmp/x" false)) = false
    ∧ Action.getRevertAction? (Action.removeA (RemoveAction.mk "/tmp/x" false)) = none :=
  ⟨rfl, rfl⟩

/-- C4 amended: `getRevertAction()` for Symlink and Download returns a
Remove action with path equal to the configured destination and
`recursive = false`; Remove itself is not revertible (it exposes no
`getRevertAction`); and `getRevertAction()` of a Command action
constructed with a revert-command vector returns a plain (non-revertible)
Command action running that vector with the same stdout/stderr modes,
environment, and working directory. -/
theorem c4_amended_revert_actions :
    (∀ a : SymlinkAction,
      Action.getRevertAction? (Action.symlinkA a)
        = some (Action.removeA (RemoveAction.mk a.dest false)))
    ∧ (∀ a : DownloadAction,
      Action.getRevertAction? (Action.downloadA a)
        = some (Action.removeA (RemoveAction.mk a.dest false)))
    ∧ (∀ a : RemoveAction,
      Action.getRevertAction? (Action.removeA a) = none
      ∧ isRevertibleAction (Action.removeA a) = false)
    ∧ (∀ (a : CommandAction) (rc : String × List String),
      Action.getRevertAction? (Action.revertibleCommandA a rc)
        = some (Action.commandA
            (CommandAction.mk rc.1 rc.2 a.stdout a.stderr a.env a.cwd))
      ∧ isRevertibleAction
          (Action.commandA (CommandAction.mk rc.1 rc.2 a.stdout a.stderr a.env a.cwd))
          = false) :=
  ⟨fun _ => rfl, fun _ => rfl, fun _ => ⟨rfl, rfl⟩, fun _ _ => ⟨rfl, rfl⟩⟩

/-! ## C1 -/

/-- C1: every built-in action's `apply()` re-runs the preflight check that
`plan()` performs and, whenever that preflight status is not `Success`,
returns the preflight result unchanged with no mutation (the filesystem is
untouched, and for Download/Command the result does not depend on the GET
or spawn oracle); in particular a Remove whose target does not exist
yields `Skip` from both `plan()` and `apply()` with the filesystem
unchanged. -/
theorem c1_apply_preflight_shortcircuit :
    (∀ (env : Env) (fs : FS) (a : RemoveAction),
      (RemoveAction.plan env fs a).status ≠ ActionStatus.Success →
      RemoveAction.apply env fs a = (RemoveAction.plan env fs a, fs))
    ∧ (∀ (env : Env) (fs : FS) (a : SymlinkAction),
      (SymlinkAction.plan env fs a).status ≠ ActionStatus.Success →
      SymlinkAction.apply env fs a = (SymlinkAction.plan env fs a, fs))
    ∧ (∀ (env : Env) (net : Net) (fs : FS) (a : DownloadAction)
        (g : String → Except String HttpResponse),
      (DownloadAction.plan env net fs a).status ≠ ActionStatus.Success →
      DownloadAction.apply env (Net.mk net.head g) fs a
        = (DownloadAction.plan env net fs a, fs))
    ∧ (∀ (env : Env) (pr : ProcEnv) (a : CommandAction)
        (r : SpawnCfg → Except String ProcOutput),
      (CommandAction.plan env pr a).status ≠ ActionStatus.Success →
      CommandAction.apply env (ProcEnv.mk pr.whichOk r) a
        = CommandAction.plan env pr a)
    ∧ (∀ (env : Env) (fs : FS) (a : RemoveAction),
      existsFs fs (resolvePath env a.path) = false →
      (RemoveAction.plan env fs a).status = ActionStatus.Skip
      ∧ RemoveAction.apply env fs a = (RemoveAction.plan env fs a, fs)) := by
  refine ⟨?_, ?_, ?_, ?_, ?_⟩
  · intro env fs a h
    unfold RemoveAction.plan at h
    unfold RemoveAction.apply
    rw [if_pos h]
    rfl
  · intro env fs a h
    unfold SymlinkAction.plan at h
    unfold SymlinkAction.apply
    rw [if_pos h]
    rfl
  · intro env net fs a g h
    unfold DownloadAction.plan at h
    have hsame : DownloadAction.getPreflightResult env (Net.mk net.head g) fs a
        = DownloadAction.getPreflightResult env net fs a := rfl
    unfold DownloadAction.apply
    rw [hsame, if_pos h]
    rfl
  · intro env pr a r h
    unfold CommandAction.plan at h
    have hsame : CommandAction.getPreflightResult env (ProcEnv.mk pr.whichOk r) a
        = CommandAction.getPreflightResult env pr a := rfl
    unfold CommandAction.apply
    rw [hsame, if_pos h]
    rfl
  · intro env fs a h
    have hplan : RemoveAction.plan env fs a
        = { status := ActionStatus.Skip, detail := some ("File not found: " ++ a.path) } := by
      unfold RemoveAction.plan RemoveAction.getPreflightResult
      simp [h]
    refine ⟨by rw [hplan], ?_⟩
    unfold RemoveAction.apply
    rw [show RemoveAction.getPreflightResult env fs a = RemoveAction.plan env fs a from rfl,
      if_pos (by rw [hplan]; exact fun hc => ActionStatus.noConfusion hc)]

/-- C1 witness: concrete instantiations of every conjunct. -/
theorem c1_witness :
    ((RemoveAction.plan cEnv [("/", Entry.dir), ("/dir", Entry.dir)]
        (RemoveAction.mk "/dir" false)).status ≠ ActionStatus.Success
      ∧ RemoveAction.apply cEnv [("/", Entry.dir), ("/dir", Entry.dir)]
          (RemoveAction.mk "/dir" false)
        = (RemoveAction.plan cEnv [("/", Entry.dir), ("/dir", Entry.dir)]
            (RemoveAction.mk "/dir" false),
           [("/", Entry.dir), ("/dir", Entry.dir)]))
    ∧ ((SymlinkAction.plan cEnv [("/", Entry.dir)]
        (SymlinkAction.mk "/s" "/d" false)).status ≠ ActionStatus.Success
      ∧ SymlinkAction.apply cEnv [("/", Entry.dir)] (SymlinkAction.mk "/s" "/d" false)
        = (SymlinkAction.plan cEnv [("/", Entry.dir)] (SymlinkAction.mk "/s" "/d" false),
           [("/", Entry.dir)]))
    ∧ ((DownloadAction.plan cEnv
          (Net.mk (fun _ => Except.error "down") (fun _ => Except.error "down"))
          [] (DownloadAction.mk "u" "/f" false false)).status ≠ ActionStatus.Success
      ∧ DownloadAction.apply cEnv
          (Net.mk (fun _ => Except.error "down") (fun _ => Except.error "down"))
          [] (DownloadAction.mk "u" "/f" false false)
        = (DownloadAction.plan cEnv
            (Net.mk (fun _ => Except.error "down") (fun _ => Except.error "down"))
            [] (DownloadAction.mk "u" "/f" false false), []))
    ∧ ((CommandAction.plan cEnv (ProcEnv.mk (fun _ => false) (fun _ => Except.error "e"))
          (CommandAction.mk "nocmd" [] OutputMode.Capture OutputMode.Capture [] none)).status
            ≠ ActionStatus.Success
      ∧ CommandAction.apply cEnv (ProcEnv.mk (fun _ => false) (fun _ => Except.error "e"))
          (CommandAction.mk "nocmd" [] OutputMode.Capture OutputMode.Capture [] none)
        = CommandAction.plan cEnv (ProcEnv.mk (fun _ => false) (fun _ => Except.error "e"))
            (CommandAction.mk "nocmd" [] OutputMode.Capture OutputMode.Capture [] none))
    ∧ ((RemoveAction.plan cEnv [] (RemoveAction.mk "/x" false)).status = ActionStatus.Skip
      ∧ RemoveAction.apply cEnv [] (RemoveAction.mk "/x" false)
        = (RemoveAction.plan cEnv [] (RemoveAction.mk "/x" false), [])) :=
  ⟨⟨by decide, c1_apply_preflight_shortcircuit.1 cEnv _ _ (by decide)⟩,
   ⟨by decide, c1_apply_preflight_shortcircuit.2.1 cEnv _ _ (by decide)⟩,
   ⟨by decide,
    c1_apply_preflight_shortcircuit.2.2.1 cEnv
      (Net.mk (fun _ => Except.error "down") (fun _ => Except.error "down")) []
      (DownloadAction.mk "u" "/f" false false) (fun _ => Except.error "down") (by decide)⟩,
   ⟨by decide,
    c1_apply_preflight_shortcircuit.2.2.2.1 cEnv
      (ProcEnv.mk (fun _ => false) (fun _ => Except.error "e"))
      (CommandAction.mk "nocmd" [] OutputMode.Capture OutputMode.Capture [] none)
      (fun _ => Except.error "e") (by decide)⟩,
   c1_apply_preflight_shortcircuit.2.2.2.2 cEnv [] (RemoveAction.mk "/x" false) (by decide)⟩

/-! ## C9 -/

/-- C9: when a Remove action's resolved path holds a dangling symlink, the
preflight's existence probe follows the link, so both `plan()` and
`apply()` return `Skip` ("File not found") with the filesystem — and
hence the symlink itself — untouched; and because directory-ness is
probed with `lstat`, a symlink resolving to a directory is not treated as
a directory: with `recursive = false` both phases succeed, the link entry
is removed and the target directory survives. -/
theorem c9_remove_symlink_probes :
    (∀ (env : Env) (fs : FS) (a : RemoveAction) (t : String),
      List.lookup (resolvePath env a.path) fs = some (Entry.link t) →
      existsFs fs (resolvePath env a.path) = false →
      RemoveAction.plan env fs a
        = { status := ActionStatus.Skip, detail := some ("File not found: " ++ a.path) }
      ∧ RemoveAction.apply env fs a
        = ({ status := ActionStatus.Skip, detail := some ("File not found: " ++ a.path) }, fs))
    ∧ (∀ (env : Env) (fs : FS) (a : RemoveAction) (t q : String),
      a.recursive = false →
      List.lookup (resolvePath env a.path) fs = some (Entry.link t) →
      resolveEntry fs (fuelFor fs) (resolvePath env a.path) = some (q, Entry.dir) →
      (RemoveAction.plan env fs a).status = ActionStatus.Success
      ∧ (RemoveAction.apply env fs a).1.status = ActionStatus.Success
      ∧ List.lookup (resolvePath env a.path) (RemoveAction.apply env fs a).2 = none
      ∧ List.lookup q (RemoveAction.apply env fs a).2 = some Entry.dir) := by
  constructor
  · intro env fs a t hlink hex
    have hplan : RemoveAction.plan env fs a
        = { status := ActionStatus.Skip, detail := some ("File not found: " ++ a.path) } := by
      unfold RemoveAction.plan RemoveAction.getPreflightResult
      simp [hex]
    refine ⟨hplan, ?_⟩
    unfold RemoveAction.apply
    rw [show RemoveAction.getPreflightResult env fs a = RemoveAction.plan env fs a from rfl,
      hplan]
    simp
  · intro env fs a t q hrec hlink hres
    have hex : existsFs fs (resolvePath env a.path) = true := by
      unfold existsFs
      rw [hres]
      rfl
    have hdir : isDirectoryFs fs (resolvePath env a.path) = false := by
      unfold isDirectoryFs
      rw [hlink]
    have hplan : RemoveAction.plan env fs a = { status := ActionStatus.Success } := by
      unfold RemoveAction.plan RemoveAction.getPreflightResult
      simp [hex, hdir]
    have hqp : q ≠ resolvePath env a.path := by
      intro hqe
      have h1 := lookup_of_resolveEntry fs (fuelFor fs) (resolvePath env a.path) q Entry.dir hres
      rw [hqe, hlink] at h1
      exact Entry.noConfusion (Option.some.inj h1)
    have happly : RemoveAction.apply env fs a
        = ({ status := ActionStatus.Success },
           fs.filter (fun e => e.1 != resolvePath env a.path)) := by
      unfold RemoveAction.apply
      rw [show RemoveAction.getPreflightResult env fs a = RemoveAction.plan env fs a from rfl,
        hplan, if_neg (fun hc => hc rfl)]
      simp only [removeFs, hlink]
    refine ⟨by rw [hplan], by rw [happly], ?_, ?_⟩
    · rw [happly]
      exact lookup_filter_drop fs (resolvePath env a.path) _
        (fun e he => by simp [he])
    · rw [happly]
      rw [lookup_filter_ne fs (resolvePath env a.path) q hqp]
      exact lookup_of_resolveEntry fs (fuelFor fs) (resolvePath env a.path) q Entry.dir hres

/-- C9 witness: a dangling link `/d -> /gone` is skipped and kept; a link
`/l -> /dir` to a directory is removed non-recursively while `/dir`
survives. -/
theorem c9_witness :
    (RemoveAction.plan cEnv [("/", Entry.dir), ("/d", Entry.link "/gone")]
        (RemoveAction.mk "/d" false)
      = { status := ActionStatus.Skip, detail := some "File not found: /d" }
      ∧ RemoveAction.apply cEnv [("/", Entry.dir), ("/d", Entry.link "/gone")]
          (RemoveAction.mk "/d" false)
        = ({ status := ActionStatus.Skip, detail := some "File not found: /d" },
           [("/", Entry.dir), ("/d", Entry.link "/gone")]))
    ∧ ((RemoveAction.plan cEnv [("/", Entry.dir), ("/dir", Entry.dir), ("/l", Entry.link "/dir")]
        (RemoveAction.mk "/l" false)).status = ActionStatus.Success
      ∧ (RemoveAction.apply cEnv [("/", Entry.dir), ("/dir", Entry.dir), ("/l", Entry.link "/dir")]
          (RemoveAction.mk "/l" false)).1.status = ActionStatus.Success
      ∧ List.lookup "/l"
          (RemoveAction.apply cEnv [("/", Entry.dir), ("/dir", Entry.dir), ("/l", Entry.link "/dir")]
            (RemoveAction.mk "/l" false)).2 = none
      ∧ List.lookup "/dir"
          (RemoveAction.apply cEnv [("/", Entry.dir), ("/dir", Entry.dir), ("/l", Entry.link "/dir")]
            (RemoveAction.mk "/l" false)).2 = some Entry.dir) :=
  ⟨c9_remove_symlink_probes.1 cEnv [("/", Entry.dir), ("/d", Entry.link "/gone")]
      (RemoveAction.mk "/d" false) "/gone" (by decide) (by decide),
   c9_remove_symlink_probes.2 cEnv
      [("/", Entry.dir), ("/dir", Entry.dir), ("/l", Entry.link "/dir")]
      (RemoveAction.mk "/l" false) "/dir" "/dir" rfl (by decide) (by decide)⟩

/-! ## C10 -/

/-- C10: with a dangling symlink at the Symlink action's destination and
an existing source (and the destination's parent directory present),
`plan()` returns `Success` — the follow-link probe reports the destination
absent — while `apply()` skips the remove-existing step for the same
reason and the link creation then fails on the existing entry: `apply()`
returns `Error`, the filesystem is unchanged and the stale link remains,
so `plan()` and `apply()` diverge. -/
theorem c10_symlink_dangling_dest_divergence :
    ∀ (env : Env) (fs : FS) (a : SymlinkAction) (t : String),
      List.lookup (resolvePath env a.dest) fs = some (Entry.link t) →
      existsFs fs (resolvePath env a.dest) = false →
      existsFs fs (resolvePath env a.src) = true →
      existsFs fs (dirname (resolvePath env a.dest)) = true →
      (SymlinkAction.plan env fs a).status = ActionStatus.Success
      ∧ (SymlinkAction.apply env fs a).1.status = ActionStatus.Error
      ∧ (SymlinkAction.apply env fs a).2 = fs
      ∧ List.lookup (resolvePath env a.dest) (SymlinkAction.apply env fs a).2
          = some (Entry.link t) := by
  intro env fs a t hlink hdest hsrc hdir
  have hplan : SymlinkAction.plan env fs a = { status := ActionStatus.Success } := by
    unfold SymlinkAction.plan SymlinkAction.getPreflightResult
    simp [hdest, hsrc]
  have happly : SymlinkAction.apply env fs a
      = ({ status := ActionStatus.Error
           detail := some ("An error occurred: "
             ++ ("File exists: " ++ resolvePath env a.dest)) }, fs) := by
    unfold SymlinkAction.apply
    rw [show SymlinkAction.getPreflightResult env fs a = SymlinkAction.plan env fs a from rfl,
      hplan, if_neg (fun hc => hc rfl)]
    simp only [symlinkFs, hdir, hdest, hlink, Option.isSome_some, Bool.not_true,
      Bool.false_eq_true, if_false, if_true]
  exact ⟨by rw [hplan], by rw [happly], by rw [happly], by rw [happly]; exact hlink⟩

/-- C10 witness: source `/s`, dangling link `/d -> /gone`. -/
theorem c10_witness :
    ((SymlinkAction.plan cEnv
        [("/", Entry.dir), ("/s", Entry.file "x" none), ("/d", Entry.link "/gone")]
        (SymlinkAction.mk "/s" "/d" false)).status = ActionStatus.Success
      ∧ (SymlinkAction.apply cEnv
          [("/", Entry.dir), ("/s", Entry.file "x" none), ("/d", Entry.link "/gone")]
          (SymlinkAction.mk "/s" "/d" false)).1.status = ActionStatus.Error
      ∧ (SymlinkAction.apply cEnv
          [("/", Entry.dir), ("/s", Entry.file "x" none), ("/d", Entry.link "/gone")]
          (SymlinkAction.mk "/s" "/d" false)).2
          = [("/", Entry.dir), ("/s", Entry.file "x" none), ("/d", Entry.link "/gone")]
      ∧ List.lookup "/d"
          (SymlinkAction.apply cEnv
            [("/", Entry.dir), ("/s", Entry.file "x" none), ("/d", Entry.link "/gone")]
            (SymlinkAction.mk "/s" "/d" false)).2 = some (Entry.link "/gone")) :=
  c10_symlink_dangling_dest_divergence cEnv
    [("/", Entry.dir), ("/s", Entry.file "x" none), ("/d", Entry.link "/gone")]
    (SymlinkAction.mk "/s" "/d" false) "/gone" (by decide) (by decide) (by decide) (by decide)

/-! ## C7 -/

/-- The same-link test of the Symlink preflight: the destination exists
and source and destination resolve to the same canonical real path (a
failing resolution counts as not-same, as the code's catch does). -/
def sameLinkTest (env : Env) (fs : FS) (a : SymlinkAction) : Bool :=
  existsFs fs (resolvePath env a.dest) &&
    (match realPathFs fs (resolvePath env a.dest), realPathFs fs (resolvePath env a.src) with
     | some x, some y => x == y
     | _, _ => false)

/-- C7: the Symlink preflight decides in order: same-link (destination
exists and canonical real paths agree) gives `Skip` for both `plan()` and
`apply()` with the filesystem unchanged, regardless of the overwrite flag;
otherwise a missing source gives `Error`; otherwise an existing
destination with `overwrite = false` gives `Error`; otherwise `Success`. -/
theorem c7_symlink_preflight_order :
    ∀ (env : Env) (fs : FS) (a : SymlinkAction),
      (sameLinkTest env fs a = true →
        SymlinkAction.plan env fs a
          = { status := ActionStatus.Skip
              detail := some "Symlink already exists and is correct." }
        ∧ SymlinkAction.apply env fs a
          = ({ status := ActionStatus.Skip
               detail := some "Symlink already exists and is correct." }, fs))
      ∧ (sameLinkTest env fs a = false →
        existsFs fs (resolvePath env a.src) = false →
        SymlinkAction.plan env fs a
          = { status := ActionStatus.Error
              detail := some ("Source not found: " ++ a.src) })
      ∧ (sameLinkTest env fs a = false →
        existsFs fs (resolvePath env a.src) = true →
        existsFs fs (resolvePath env a.dest) = true →
        a.overwrite = false →
        SymlinkAction.plan env fs a
          = { status := ActionStatus.Error
              detail := some ("Destination already exists and is not the correct symlink: "
                ++ a.dest) })
      ∧ (sameLinkTest env fs a = false →
        existsFs fs (resolvePath env a.src) = true →
        (existsFs fs (resolvePath env a.dest) = false ∨ a.overwrite = true) →
        SymlinkAction.plan env fs a = { status := ActionStatus.Success }) := by
  intro env fs a
  refine ⟨?_, ?_, ?_, ?_⟩
  · intro hsame
    have hplan : SymlinkAction.plan env fs a
        = { status := ActionStatus.Skip
            detail := some "Symlink already exists and is correct." } := by
      unfold SymlinkAction.plan SymlinkAction.getPreflightResult
      unfold sameLinkTest at hsame
      simp only [hsame, if_true]
    refine ⟨hplan, ?_⟩
    unfold SymlinkAction.apply
    rw [show SymlinkAction.getPreflightResult env fs a = SymlinkAction.plan env fs a from rfl,
      hplan]
    simp
  · intro hsame hsrc
    unfold SymlinkAction.plan SymlinkAction.getPreflightResult
    unfold sameLinkTest at hsame
    simp only [hsame, hsrc, Bool.not_false, Bool.false_eq_true, if_false, if_true]
  · intro hsame hsrc hdest hover
    unfold SymlinkAction.plan SymlinkAction.getPreflightResult
    unfold sameLinkTest at hsame
    rw [hdest, Bool.true_and] at hsame
    simp only [hsame, hsrc, hdest, hover, Bool.not_true, Bool.not_false, Bool.true_and,
      Bool.false_eq_true, if_false, if_true]
  · intro hsame hsrc hdest
    unfold SymlinkAction.plan SymlinkAction.getPreflightResult
    unfold sameLinkTest at hsame
    cases hdest with
    | inl h =>
      simp only [hsame, hsrc, h, Bool.not_true, Bool.not_false, Bool.false_and,
        Bool.false_eq_true, if_false]
    | inr h =>
      simp only [hsame, hsrc, h, Bool.not_true, Bool.not_false, Bool.and_false,
        Bool.false_eq_true, if_false]

/-- C7 witness: the four preflight branches on concrete filesystems. -/
theorem c7_witness :
    (SymlinkAction.plan cEnv [("/", Entry.dir), ("/s", Entry.file "x" none), ("/d", Entry.link "/s")]
        (SymlinkAction.mk "/s" "/d" false)
      = { status := ActionStatus.Skip, detail := some "Symlink already exists and is correct." }
      ∧ SymlinkAction.apply cEnv
          [("/", Entry.dir), ("/s", Entry.file "x" none), ("/d", Entry.link "/s")]
          (SymlinkAction.mk "/s" "/d" false)
        = ({ status := ActionStatus.Skip, detail := some "Symlink already exists and is correct." },
           [("/", Entry.dir), ("/s", Entry.file "x" none), ("/d", Entry.link "/s")]))
    ∧ SymlinkAction.plan cEnv [("/", Entry.dir)] (SymlinkAction.mk "/s" "/d" false)
        = { status := ActionStatus.Error, detail := some "Source not found: /s" }
    ∧ SymlinkAction.plan cEnv
        [("/", Entry.dir), ("/s", Entry.file "x" none), ("/d", Entry.file "y" none)]
        (SymlinkAction.mk "/s" "/d" false)
        = { status := ActionStatus.Error
            detail := some "Destination already exists and is not the correct symlink: /d" }
    ∧ SymlinkAction.plan cEnv [("/", Entry.dir), ("/s", Entry.file "x" none)]
        (SymlinkAction.mk "/s" "/d" false)
        = { status := ActionStatus.Success } :=
  ⟨(c7_symlink_preflight_order cEnv
      [("/", Entry.dir), ("/s", Entry.file "x" none), ("/d", Entry.link "/s")]
      (SymlinkAction.mk "/s" "/d" false)).1 (by decide),
   (c7_symlink_preflight_order cEnv [("/", Entry.dir)]
      (SymlinkAction.mk "/s" "/d" false)).2.1 (by decide) (by decide),
   (c7_symlink_preflight_order cEnv
      [("/", Entry.dir), ("/s", Entry.file "x" none), ("/d", Entry.file "y" none)]
      (SymlinkAction.mk "/s" "/d" false)).2.2.1 (by decide) (by decide) (by decide) rfl,
   (c7_symlink_preflight_order cEnv [("/", Entry.dir), ("/s", Entry.file "x" none)]
      (SymlinkAction.mk "/s" "/d" false)).2.2.2 (by decide) (by decide) (Or.inl (by decide))⟩

/-! ## C5 -/

/-- Filesystem for the C5 counterexample: destination `/d` exists with
modification time 50 (the remote parses to 10 under `cEnv.parseDate`). -/
def c5Fs : FS := [("/", Entry.dir), ("/d", Entry.file "old" (some 50))]

/-- Network for the C5 counterexample: HEAD succeeds and carries a
Last-Modified header. -/
def c5Net : Net :=
  { head := fun _ => Except.ok (HttpResponse.mk true 200 "OK" (some "LM") "")
    get := fun _ => Except.ok (HttpResponse.mk true 200 "OK" (some "LM") "new") }

/-- C5 counterexample: a Download action with `timestamping = true`, an
existing destination whose modification time (50) is at least the parsed
remote Last-Modified time (10), and a HEAD response carrying that header —
yet `plan()` is `Error` ("already exists"), not the `Skip` the claim
demands, because the preflight's overwrite check fires first when
`overwrite = false`. -/
theorem c5_counterexample_overwrite_precedes_timestamping :
    List.lookup "/d" c5Fs = some (Entry.file "old" (some 50))
    ∧ c5Net.head "u" = Except.ok (HttpResponse.mk true 200 "OK" (some "LM") "")
    ∧ cEnv.parseDate "LM" = some 10
    ∧ (DownloadAction.plan cEnv c5Net c5Fs (DownloadAction.mk "u" "/d" false true)).status
        = ActionStatus.Error
    ∧ (DownloadAction.plan cEnv c5Net c5Fs (DownloadAction.mk "u" "/d" false true)).status
        ≠ ActionStatus.Skip
    ∧ (DownloadAction.plan cEnv c5Net c5Fs (DownloadAction.mk "u" "/d" false true)).detail
        = some "Destination already exists: /d" :=
  ⟨rfl, rfl, rfl, by decide, by decide, by decide⟩

/-- C5 amended: for a Download action with `timestamping = true` *and
`overwrite = true`* (otherwise an existing destination makes the
preflight's overwrite check return `Error` first), whose destination
exists and whose HEAD response carries a parseable Last-Modified
timestamp: when the local modification time is at least the remote one,
both `plan()` and `apply()` return `Skip` and the filesystem (hence the
destination's bytes) is unchanged; when it is older, `plan()` is
`Success` and `apply()` performs the full download, after which the
destination's bytes are the fetched body. -/
theorem c5_amended_timestamping :
    ∀ (env : Env) (net : Net) (fs : FS) (a : DownloadAction) (c : String) (mt rt : Int)
      (hres : HttpResponse) (lm : String),
      a.overwrite = true → a.timestamping = true →
      List.lookup (resolvePath env a.dest) fs = some (Entry.file c (some mt)) →
      net.head a.url = Except.ok hres → hres.ok = true → hres.lastModified = some lm →
      env.parseDate lm = some rt →
      ((mt ≥ rt →
        DownloadAction.plan env net fs a
          = { status := ActionStatus.Skip, detail := some "Local file is up-to-date." }
        ∧ DownloadAction.apply env net fs a
          = ({ status := ActionStatus.Skip, detail := some "Local file is up-to-date." }, fs))
      ∧ (mt < rt →
        DownloadAction.plan env net fs a = { status := ActionStatus.Success }
        ∧ (existsFs fs (dirname (resolvePath env a.dest)) = true →
          ∀ gres : HttpResponse, net.get a.url = Except.ok gres → gres.ok = true →
          DownloadAction.apply env net fs a
            = ({ status := ActionStatus.Success },
               writeFileFs fs (resolvePath env a.dest) gres.body env.now)
          ∧ List.lookup (resolvePath env a.dest) (DownloadAction.apply env net fs a).2
            = some (Entry.file gres.body env.now)))) := by
  intro env net fs a c mt rt hres lm hover hts hlook hhead hok hlm hparse
  have hre : resolveEntry fs (fuelFor fs) (resolvePath env a.dest)
      = some (resolvePath env a.dest, Entry.file c (some mt)) :=
    resolveEntry_of_lookup_nonlink fs _ _ hlook (fun t h => Entry.noConfusion h)
  have hex : existsFs fs (resolvePath env a.dest) = true := by
    unfold existsFs
    rw [hre]
    rfl
  have hstat : statMtimeFs fs (resolvePath env a.dest) = some (some mt) := by
    unfold statMtimeFs
    rw [hre]
    rfl
  constructor
  · intro hge
    have hplan : DownloadAction.plan env net fs a
        = { status := ActionStatus.Skip, detail := some "Local file is up-to-date." } := by
      unfold DownloadAction.plan DownloadAction.getPreflightResult
      simp only [hex, hover, hhead, hok, hlm, hts, hparse, hstat, Bool.not_true,
        Bool.and_false, Bool.and_self, Bool.false_eq_true, if_false, if_true]
      rw [if_pos hge]
    refine ⟨hplan, ?_⟩
    unfold DownloadAction.apply
    rw [show DownloadAction.getPreflightResult env net fs a = DownloadAction.plan env net fs a
        from rfl, hplan]
    simp
  · intro hlt
    have hplan : DownloadAction.plan env net fs a = { status := ActionStatus.Success } := by
      unfold DownloadAction.plan DownloadAction.getPreflightResult
      simp only [hex, hover, hhead, hok, hlm, hts, hparse, hstat, Bool.not_true,
        Bool.and_false, Bool.and_self, Bool.false_eq_true, if_false, if_true]
      rw [if_neg (not_le.mpr hlt)]
    refine ⟨hplan, ?_⟩
    intro hdir gres hget hgok
    have happly : DownloadAction.apply env net fs a
        = ({ status := ActionStatus.Success },
           writeFileFs fs (resolvePath env a.dest) gres.body env.now) := by
      unfold DownloadAction.apply
      rw [show DownloadAction.getPreflightResult env net fs a = DownloadAction.plan env net fs a
          from rfl, hplan, if_neg (fun hc => hc rfl)]
      simp only [hdir, hget, hgok, Bool.not_true, Bool.false_eq_true, if_false]
    have hq : writeTargetPath fs (fuelFor fs) (resolvePath env a.dest)
        = resolvePath env a.dest := by
      simp only [fuelFor, writeTargetPath, hlook]
    refine ⟨happly, ?_⟩
    rw [happly]
    unfold writeFileFs
    rw [hq]
    simp [List.lookup]

/-- C5 witness: under `cEnv` (remote parses to 10), `/d` with mtime 50 is
skipped unchanged, and `/d` with mtime 5 is re-downloaded to the fetched
body "new". -/
theorem c5_witness :
    (DownloadAction.plan cEnv c5Net c5Fs (DownloadAction.mk "u" "/d" true true)
      = { status := ActionStatus.Skip, detail := some "Local file is up-to-date." }
      ∧ DownloadAction.apply cEnv c5Net c5Fs (DownloadAction.mk "u" "/d" true true)
        = ({ status := ActionStatus.Skip, detail := some "Local file is up-to-date." }, c5Fs))
    ∧ (DownloadAction.plan cEnv c5Net [("/", Entry.dir), ("/d", Entry.file "old" (some 5))]
        (DownloadAction.mk "u" "/d" true true) = { status := ActionStatus.Success }
      ∧ (DownloadAction.apply cEnv c5Net [("/", Entry.dir), ("/d", Entry.file "old" (some 5))]
          (DownloadAction.mk "u" "/d" true true)
          = ({ status := ActionStatus.Success },
             writeFileFs [("/", Entry.dir), ("/d", Entry.file "old" (some 5))] "/d" "new"
               (some 99))
        ∧ List.lookup "/d"
            (DownloadAction.apply cEnv c5Net [("/", Entry.dir), ("/d", Entry.file "old" (some 5))]
              (DownloadAction.mk "u" "/d" true true)).2
            = some (Entry.file "new" (some 99)))) :=
  ⟨(c5_amended_timestamping cEnv c5Net c5Fs (DownloadAction.mk "u" "/d" true true)
      "old" 50 10 (HttpResponse.mk true 200 "OK" (some "LM") "") "LM"
      rfl rfl (by decide) rfl rfl rfl rfl).1 (by decide),
   ⟨((c5_amended_timestamping cEnv c5Net [("/", Entry.dir), ("/d", Entry.file "old" (some 5))]
      (DownloadAction.mk "u" "/d" true true)
      "old" 5 10 (HttpResponse.mk true 200 "OK" (some "LM") "") "LM"
      rfl rfl (by decide) rfl rfl rfl rfl).2 (by decide)).1,
    ((c5_amended_timestamping cEnv c5Net [("/", Entry.dir), ("/d", Entry.file "old" (some 5))]
      (DownloadAction.mk "u" "/d" true true)
      "old" 5 10 (HttpResponse.mk true 200 "OK" (some "LM") "") "LM"
      rfl rfl (by decide) rfl rfl rfl rfl).2 (by decide)).2 (by decide)
      (HttpResponse.mk true 200 "OK" (some "LM") "new") rfl rfl⟩⟩

/-! ## C2 -/

/-- Network for the C2 counterexample: the HEAD probe succeeds, the GET
fails with 404. -/
def c2Net : Net :=
  { head := fun _ => Except.ok (HttpResponse.mk true 200 "OK" none "")
    get := fun _ => Except.ok (HttpResponse.mk false 404 "Not Found" none "") }

/-- C2 counterexample: a Download `apply()` whose preflight HEAD succeeds
but whose GET returns non-OK ends in `Error`, yet the filesystem is no
longer identical to the pre-apply state — the destination's missing
parent directories were created before the failing fetch. -/
theorem c2_counterexample_download_mkdir_residue :
    (DownloadAction.apply cEnv c2Net [] (DownloadAction.mk "u" "/p/f" false false)).1.status
      = ActionStatus.Error
    ∧ (DownloadAction.apply cEnv c2Net [] (DownloadAction.mk "u" "/p/f" false false)).2 ≠ []
    ∧ List.lookup "/p"
        (DownloadAction.apply cEnv c2Net [] (DownloadAction.mk "u" "/p/f" false false)).2
      = some Entry.dir :=
  ⟨by decide, by decide, by decide⟩

/-- C2 amended: an `Error` result never leaves a partial effect on the
filesystem *except* for the destination's parent directories that
Download's and Symlink's `apply()` create before the failing step: a
Remove `apply()` ending in `Error` leaves the filesystem exactly as
before, and a Symlink or Download `apply()` ending in `Error` leaves it
either unchanged or changed only by the recursive creation of the
destination's parent directory. -/
theorem c2_amended_error_leaves_state :
    (∀ (env : Env) (fs : FS) (a : RemoveAction),
      (RemoveAction.apply env fs a).1.status = ActionStatus.Error →
      (RemoveAction.apply env fs a).2 = fs)
    ∧ (∀ (env : Env) (fs : FS) (a : SymlinkAction),
      (SymlinkAction.apply env fs a).1.status = ActionStatus.Error →
      (SymlinkAction.apply env fs a).2 = fs
      ∨ (SymlinkAction.apply env fs a).2
          = mkdirRec fs ((dirname (resolvePath env a.dest)).length + 1)
              (dirname (resolvePath env a.dest)))
    ∧ (∀ (env : Env) (net : Net) (fs : FS) (a : DownloadAction),
      (DownloadAction.apply env net fs a).1.status = ActionStatus.Error →
      (DownloadAction.apply env net fs a).2 = fs
      ∨ (DownloadAction.apply env net fs a).2
          = mkdirRec fs ((dirname (resolvePath env a.dest)).length + 1)
              (dirname (resolvePath env a.dest))) := by
  refine ⟨?_, ?_, ?_⟩
  · intro env fs a h
    unfold RemoveAction.apply at h ⊢
    by_cases hpre : (RemoveAction.getPreflightResult env fs a).status = ActionStatus.Success
    · rw [if_neg (fun hc => hc hpre)] at h ⊢
      cases hr : removeFs fs (resolvePath env a.path) a.recursive with
      | ok fs2 =>
        simp only [hr] at h
        rw [hpre] at h
        exact absurd h (fun hc => ActionStatus.noConfusion hc)
      | error msg => simp only [hr]
    · rw [if_pos hpre] at h ⊢
  · intro env fs a h
    unfold SymlinkAction.apply at h ⊢
    by_cases hpre : (SymlinkAction.getPreflightResult env fs a).status = ActionStatus.Success
    · rw [if_neg (fun hc => hc hpre)] at h ⊢
      by_cases hdir : existsFs fs (dirname (resolvePath env a.dest)) = true
      · simp only [hdir, Bool.not_true, Bool.false_eq_true, if_false] at h ⊢
        by_cases hdest : existsFs fs (resolvePath env a.dest) = true
        · have hl := lookup_isSome_of_existsFs fs _ hdest
          simp only [hdest, if_true] at h
          cases he : List.lookup (resolvePath env a.dest) fs with
          | none => rw [he] at hl; simp at hl
          | some e0 =>
            exfalso
            cases e0 with
            | dir =>
              have hrm : removeFs fs (resolvePath env a.dest) true
                  = Except.ok (fs.filter (fun e =>
                      !(e.1 == resolvePath env a.dest
                        || strStartsWith e.1 (resolvePath env a.dest ++ "/")))) := by
                unfold removeFs
                rw [he]
                rfl
              have hlk : List.lookup (resolvePath env a.dest)
                  (fs.filter (fun e =>
                    !(e.1 == resolvePath env a.dest
                      || strStartsWith e.1 (resolvePath env a.dest ++ "/")))) = none :=
                lookup_filter_drop _ _ _ (fun e hep => by simp [hep])
              rw [hrm] at h
              simp only [symlinkFs, hlk, Option.isSome_none, Bool.false_eq_true, if_false] at h
              rw [hpre] at h
              exact ActionStatus.noConfusion h
            | file c m =>
              have hrm : removeFs fs (resolvePath env a.dest) true
                  = Except.ok (fs.filter (fun e => e.1 != resolvePath env a.dest)) := by
                unfold removeFs
                rw [he]
              have hlk : List.lookup (resolvePath env a.dest)
                  (fs.filter (fun e => e.1 != resolvePath env a.dest)) = none :=
                lookup_filter_drop _ _ _ (fun e hep => by simp [hep])
              rw [hrm] at h
              simp only [symlinkFs, hlk, Option.isSome_none, Bool.false_eq_true, if_false] at h
              rw [hpre] at h
              exact ActionStatus.noConfusion h
            | link t =>
              have hrm : removeFs fs (resolvePath env a.dest) true
                  = Except.ok (fs.filter (fun e => e.1 != resolvePath env a.dest)) := by
                unfold removeFs
                rw [he]
              have hlk : List.lookup (resolvePath env a.dest)
                  (fs.filter (fun e => e.1 != resolvePath env a.dest)) = none :=
                lookup_filter_drop _ _ _ (fun e hep => by simp [hep])
              rw [hrm] at h
              simp only [symlinkFs, hlk, Option.isSome_none, Bool.false_eq_true, if_false] at h
              rw [hpre] at h
              exact ActionStatus.noConfusion h
        · rw [Bool.not_eq_true] at hdest
          simp only [hdest, Bool.false_eq_true, if_false] at h ⊢
          cases hl : List.lookup (resolvePath env a.dest) fs with
          | some e0 =>
            simp only [symlinkFs, hl, Option.isSome_some, if_true] at h ⊢
            exact Or.inl trivial
          | none =>
            simp only [symlinkFs, hl, Option.isSome_none, Bool.false_eq_true, if_false] at h
            rw [hpre] at h
            exact absurd h (fun hc => ActionStatus.noConfusion hc)
      · rw [Bool.not_eq_true] at hdir
        simp only [hdir, Bool.not_false, if_true] at h ⊢
        by_cases hdest : existsFs
            (mkdirRec fs ((dirname (resolvePath env a.dest)).length + 1)
              (dirname (resolvePath env a.dest)))
            (resolvePath env a.dest) = true
        · have hl := lookup_isSome_of_existsFs _ _ hdest
          simp only [hdest, if_true] at h
          cases he : List.lookup (resolvePath env a.dest)
              (mkdirRec fs ((dirname (resolvePath env a.dest)).length + 1)
                (dirname (resolvePath env a.dest))) with
          | none => rw [he] at hl; simp at hl
          | some e0 =>
            exfalso
            cases e0 with
            | dir =>
              have hrm : removeFs
                  (mkdirRec fs ((dirname (resolvePath env a.dest)).length + 1)
                    (dirname (resolvePath env a.dest)))
                  (resolvePath env a.dest) true
                  = Except.ok ((mkdirRec fs ((dirname (resolvePath env a.dest)).length + 1)
                      (dirname (resolvePath env a.dest))).filter (fun e =>
                      !(e.1 == resolvePath env a.dest
                        || strStartsWith e.1 (resolvePath env a.dest ++ "/")))) := by
                unfold removeFs
                rw [he]
                rfl
              have hlk := lookup_filter_drop
                (mkdirRec fs ((dirname (resolvePath env a.dest)).length + 1)
                  (dirname (resolvePath env a.dest)))
                (resolvePath env a.dest)
                (fun e => !(e.1 == resolvePath env a.dest
                  || strStartsWith e.1 (resolvePath env a.dest ++ "/")))
                (fun e hep => by simp [hep])
              rw [hrm] at h
              simp only [symlinkFs, hlk, Option.isSome_none, Bool.false_eq_true, if_false] at h
              rw [hpre] at h
              exact ActionStatus.noConfusion h
            | file c m =>
              have hrm : removeFs
                  (mkdirRec fs ((dirname (resolvePath env a.dest)).length + 1)
                    (dirname (resolvePath env a.dest)))
                  (resolvePath env a.dest) true
                  = Except.ok ((mkdirRec fs ((dirname (resolvePath env a.dest)).length + 1)
                      (dirname (resolvePath env a.dest))).filter
                      (fun e => e.1 != resolvePath env a.dest)) := by
                unfold removeFs
                rw [he]
              have hlk := lookup_filter_drop
                (mkdirRec fs ((dirname (resolvePath env a.dest)).length + 1)
                  (dirname (resolvePath env a.dest)))
                (resolvePath env a.dest)
                (fun e => e.1 != resolvePath env a.dest)
                (fun e hep => by simp [hep])
              rw [hrm] at h
              simp only [symlinkFs, hlk, Option.isSome_none, Bool.false_eq_true, if_false] at h
              rw [hpre] at h
              exact ActionStatus.noConfusion h
            | link t =>
              have hrm : removeFs
                  (mkdirRec fs ((dirname (resolvePath env a.dest)).length + 1)
                    (dirname (resolvePath env a.dest)))
                  (resolvePath env a.dest) true
                  = Except.ok ((mkdirRec fs ((dirname (resolvePath env a.dest)).length + 1)
                      (dirname (resolvePath env a.dest))).filter
                      (fun e => e.1 != resolvePath env a.dest)) := by
                unfold removeFs
                rw [he]
              have hlk := lookup_filter_drop
                (mkdirRec fs ((dirname (resolvePath env a.dest)).length + 1)
                  (dirname (resolvePath env a.dest)))
                (resolvePath env a.dest)
                (fun e => e.1 != resolvePath env a.dest)
                (fun e hep => by simp [hep])
              rw [hrm] at h
              simp only [symlinkFs, hlk, Option.isSome_none, Bool.false_eq_true, if_false] at h
              rw [hpre] at h
              exact ActionStatus.noConfusion h
        · rw [Bool.not_eq_true] at hdest
          simp only [hdest, Bool.false_eq_true, if_false] at h ⊢
          cases hl : List.lookup (resolvePath env a.dest)
              (mkdirRec fs ((dirname (resolvePath env a.dest)).length + 1)
                (dirname (resolvePath env a.dest))) with
          | some e0 =>
            simp only [symlinkFs, hl, Option.isSome_some, if_true] at h ⊢
            exact Or.inr trivial
          | none =>
            simp only [symlinkFs, hl, Option.isSome_none, Bool.false_eq_true, if_false] at h
            rw [hpre] at h
            exact absurd h (fun hc => ActionStatus.noConfusion hc)
    · rw [if_pos hpre] at h ⊢
      exact Or.inl rfl
  · intro env net fs a h
    unfold DownloadAction.apply at h ⊢
    by_cases hpre :
        (DownloadAction.getPreflightResult env net fs a).status = ActionStatus.Success
    · rw [if_neg (fun hc => hc hpre)] at h ⊢
      cases hg : net.get a.url with
      | error msg =>
        by_cases hdir : existsFs fs (dirname (resolvePath env a.dest)) = true
        · simp only [hdir, Bool.not_true, Bool.false_eq_true, if_false, hg] at h ⊢
          exact Or.inl trivial
        · rw [Bool.not_eq_true] at hdir
          simp only [hdir, Bool.not_false, if_true, hg] at h ⊢
          exact Or.inr trivial
      | ok res =>
        by_cases hok : res.ok = true
        · exfalso
          simp only [hg, hok, Bool.not_true, Bool.false_eq_true, if_false] at h
          exact ActionStatus.noConfusion h
        · rw [Bool.not_eq_true] at hok
          by_cases hdir : existsFs fs (dirname (resolvePath env a.dest)) = true
          · simp only [hdir, Bool.not_true, Bool.false_eq_true, if_false, hg, hok,
              Bool.not_false, if_true] at h ⊢
            exact Or.inl trivial
          · rw [Bool.not_eq_true] at hdir
            simp only [hdir, Bool.not_false, if_true, hg, hok, Bool.false_eq_true,
              if_false] at h ⊢
            exact Or.inr trivial
    · rw [if_pos hpre] at h ⊢
      exact Or.inl rfl

/-- C2 witness: a Remove `apply()` error (directory without recursive)
leaves the listing untouched; a Symlink `apply()` error (dangling link at
the destination) leaves it untouched; a Download `apply()` error (GET
fails after a successful HEAD) leaves at most created parent
directories. -/
theorem c2_witness :
    (RemoveAction.apply cEnv [("/", Entry.dir), ("/dir2", Entry.dir)]
        (RemoveAction.mk "/dir2" false)).2 = [("/", Entry.dir), ("/dir2", Entry.dir)]
    ∧ ((SymlinkAction.apply cEnv
        [("/", Entry.dir), ("/s", Entry.file "x" none), ("/d", Entry.link "/gone")]
        (SymlinkAction.mk "/s" "/d" false)).2
          = [("/", Entry.dir), ("/s", Entry.file "x" none), ("/d", Entry.link "/gone")]
      ∨ (SymlinkAction.apply cEnv
          [("/", Entry.dir), ("/s", Entry.file "x" none), ("/d", Entry.link "/gone")]
          (SymlinkAction.mk "/s" "/d" false)).2
          = mkdirRec [("/", Entry.dir), ("/s", Entry.file "x" none), ("/d", Entry.link "/gone")]
              ((dirname (resolvePath cEnv "/d")).length + 1) (dirname (resolvePath cEnv "/d")))
    ∧ ((DownloadAction.apply cEnv c2Net [] (DownloadAction.mk "u" "/p/f" false false)).2 = []
      ∨ (DownloadAction.apply cEnv c2Net [] (DownloadAction.mk "u" "/p/f" false false)).2
          = mkdirRec [] ((dirname (resolvePath cEnv "/p/f")).length + 1)
              (dirname (resolvePath cEnv "/p/f"))) :=
  ⟨c2_amended_error_leaves_state.1 cEnv [("/", Entry.dir), ("/dir2", Entry.dir)]
      (RemoveAction.mk "/dir2" false) (by decide),
   c2_amended_error_leaves_state.2.1 cEnv
      [("/", Entry.dir), ("/s", Entry.file "x" none), ("/d", Entry.link "/gone")]
      (SymlinkAction.mk "/s" "/d" false) (by decide),
   c2_amended_error_leaves_state.2.2 cEnv c2Net []
      (DownloadAction.mk "u" "/p/f" false false) (by decide)⟩

/-! ## C6 -/

/-- A four-fold concatenation with a nonempty head is nonempty. -/
theorem append3_ne_empty (A B C D : String) (h : A.length ≠ 0) :
    ((A ++ B) ++ C) ++ D ≠ "" := by
  intro hc
  have h2 := congrArg String.length hc
  simp only [String.length_append, String.length_empty] at h2
  omega

/-- Every result of a Remove `apply()` is the preflight result or an
"An error occurred" error. -/
theorem remove_apply_result_cases (env : Env) (fs : FS) (a : RemoveAction) :
    (RemoveAction.apply env fs a).1 = RemoveAction.getPreflightResult env fs a
    ∨ ∃ msg, (RemoveAction.apply env fs a).1
        = ActionResult.mk ActionStatus.Error (some ("An error occurred: " ++ msg)) := by
  unfold RemoveAction.apply
  dsimp only
  split
  · exact Or.inl rfl
  · split
    · exact Or.inl rfl
    · exact Or.inr ⟨_, rfl⟩

/-- Every result of a Symlink `apply()` is the preflight result or an
"An error occurred" error. -/
theorem symlink_apply_result_cases (env : Env) (fs : FS) (a : SymlinkAction) :
    (SymlinkAction.apply env fs a).1 = SymlinkAction.getPreflightResult env fs a
    ∨ ∃ msg, (SymlinkAction.apply env fs a).1
        = ActionResult.mk ActionStatus.Error (some ("An error occurred: " ++ msg)) := by
  unfold SymlinkAction.apply
  dsimp only
  split
  · exact Or.inl rfl
  · split
    · exact Or.inr ⟨_, rfl⟩
    · unfold symlinkFs
      split
      · exact Or.inr ⟨_, rfl⟩
      · exact Or.inl rfl

/-- Every result of a Download `apply()` is the preflight result, an
"An error occurred" error, a "Failed to fetch" error, or a bare
success. -/
theorem download_apply_result_cases (env : Env) (net : Net) (fs : FS) (a : DownloadAction) :
    (DownloadAction.apply env net fs a).1 = DownloadAction.getPreflightResult env net fs a
    ∨ (∃ msg, (DownloadAction.apply env net fs a).1
        = ActionResult.mk ActionStatus.Error (some ("An error occurred: " ++ msg)))
    ∨ (∃ res : HttpResponse, (DownloadAction.apply env net fs a).1
        = ActionResult.mk ActionStatus.Error
            (some ("Failed to fetch: " ++ toString res.status ++ " " ++ res.statusText)))
    ∨ (DownloadAction.apply env net fs a).1 = ActionResult.mk ActionStatus.Success none := by
  unfold DownloadAction.apply
  dsimp only
  split
  · exact Or.inl rfl
  · split
    · exact Or.inr (Or.inl ⟨_, rfl⟩)
    · split
      · rename_i res hres hok
        exact Or.inr (Or.inr (Or.inl ⟨res, rfl⟩))
      · exact Or.inr (Or.inr (Or.inr rfl))

/-- The Remove preflight returns one of three literal results. -/
theorem remove_pre_cases (env : Env) (fs : FS) (a : RemoveAction) :
    RemoveAction.getPreflightResult env fs a
      = ActionResult.mk ActionStatus.Skip (some ("File not found: " ++ a.path))
    ∨ RemoveAction.getPreflightResult env fs a
      = ActionResult.mk ActionStatus.Error
          (some ("Path is a directory (use recursive option to remove): " ++ a.path))
    ∨ RemoveAction.getPreflightResult env fs a = ActionResult.mk ActionStatus.Success none := by
  unfold RemoveAction.getPreflightResult
  dsimp only
  split
  · exact Or.inl rfl
  · split
    · exact Or.inr (Or.inl rfl)
    · exact Or.inr (Or.inr rfl)

/-- The Symlink preflight returns one of four literal results. -/
theorem symlink_pre_cases (env : Env) (fs : FS) (a : SymlinkAction) :
    SymlinkAction.getPreflightResult env fs a
      = ActionResult.mk ActionStatus.Skip (some "Symlink already exists and is correct.")
    ∨ SymlinkAction.getPreflightResult env fs a
      = ActionResult.mk ActionStatus.Error (some ("Source not found: " ++ a.src))
    ∨ SymlinkAction.getPreflightResult env fs a
      = ActionResult.mk ActionStatus.Error
          (some ("Destination already exists and is not the correct symlink: " ++ a.dest))
    ∨ SymlinkAction.getPreflightResult env fs a = ActionResult.mk ActionStatus.Success none := by
  unfold SymlinkAction.getPreflightResult
  dsimp only
  split
  · exact Or.inl rfl
  · split
    · exact Or.inr (Or.inl rfl)
    · split
      · exact Or.inr (Or.inr (Or.inl rfl))
      · exact Or.inr (Or.inr (Or.inr rfl))

/-- The Download preflight returns one of five result shapes. -/
theorem download_pre_cases (env : Env) (net : Net) (fs : FS) (a : DownloadAction) :
    DownloadAction.getPreflightResult env net fs a
      = ActionResult.mk ActionStatus.Error (some ("Destination already exists: " ++ a.dest))
    ∨ (∃ msg, DownloadAction.getPreflightResult env net fs a
        = ActionResult.mk ActionStatus.Error (some ("Failed to check URL: " ++ msg)))
    ∨ (∃ res : HttpResponse, DownloadAction.getPreflightResult env net fs a
        = ActionResult.mk ActionStatus.Error
            (some ("URL is not available: " ++ toString res.status ++ " " ++ res.statusText)))
    ∨ DownloadAction.getPreflightResult env net fs a
      = ActionResult.mk ActionStatus.Skip (some "Local file is up-to-date.")
    ∨ DownloadAction.getPreflightResult env net fs a
      = ActionResult.mk ActionStatus.Success none := by
  unfold DownloadAction.getPreflightResult
  dsimp only
  split
  · exact Or.inl rfl
  · split
    · exact Or.inr (Or.inl ⟨_, rfl⟩)
    · rename_i res hres
      split
      · exact Or.inr (Or.inr (Or.inl ⟨res, rfl⟩))
      · repeat' split
        all_goals
          first
            | exact Or.inr (Or.inr (Or.inr (Or.inl rfl)))
            | exact Or.inr (Or.inr (Or.inr (Or.inr rfl)))

/-- The Command preflight returns one of two literal results. -/
theorem command_pre_cases (env : Env) (pr : ProcEnv) (a : CommandAction) :
    CommandAction.getPreflightResult env pr a
      = ActionResult.mk ActionStatus.Error (some ("Command not found: " ++ a.cmd0))
    ∨ CommandAction.getPreflightResult env pr a = ActionResult.mk ActionStatus.Success none := by
  unfold CommandAction.getPreflightResult
  split
  · exact Or.inl rfl
  · exact Or.inr rfl

/-- The detail attachment `CommandAction.apply` builds from a process
output: captured streams are trimmed and attached under `stdout:` /
`stderr:` labels, only nonempty sections included; an empty total becomes
no detail. -/
def commandDetail (a : CommandAction) (out : ProcOutput) : Option String :=
  let sText := strTrim out.stdout
  let d1 := if a.stdout == OutputMode.Capture && sText != "" then
      "stdout:\n" ++ sText ++ "\n" else ""
  let eText := strTrim out.stderr
  let d2 := if a.stderr == OutputMode.Capture && eText != "" then
      "stderr:\n" ++ eText ++ "\n" else ""
  let detail := strTrim (d1 ++ d2)
  if detail = "" then none else some detail

/-- Every result of a Command `apply()` is the preflight result, an
"An error occurred" error, or the exit-code result carrying the captured
detail. -/
theorem command_apply_result_cases (env : Env) (pr : ProcEnv) (a : CommandAction) :
    CommandAction.apply env pr a = CommandAction.getPreflightResult env pr a
    ∨ (∃ msg, CommandAction.apply env pr a
        = ActionResult.mk ActionStatus.Error (some ("An error occurred: " ++ msg)))
    ∨ (∃ out, pr.run (CommandAction.spawnCfg env a) = Except.ok out
        ∧ CommandAction.apply env pr a
          = ActionResult.mk
              (if out.code == 0 then ActionStatus.Success else ActionStatus.Error)
              (commandDetail a out)) := by
  unfold CommandAction.apply
  dsimp only
  split
  · exact Or.inl rfl
  · split
    · rename_i msg hm
      exact Or.inr (Or.inl ⟨msg, rfl⟩)
    · rename_i out hout
      exact Or.inr (Or.inr ⟨out, hout, rfl⟩)

/-- C6 counterexample: a Command `apply()` whose process exits nonzero
without captured output returns `Error` with no detail at all. -/
theorem c6_counterexample_command_error_without_detail :
    (CommandAction.apply cEnv
        (ProcEnv.mk (fun _ => true) (fun _ => Except.ok (ProcOutput.mk 1 "" "")))
        (CommandAction.mk "sh" [] OutputMode.Capture OutputMode.Capture [] none)).status
      = ActionStatus.Error
    ∧ (CommandAction.apply cEnv
        (ProcEnv.mk (fun _ => true) (fun _ => Except.ok (ProcOutput.mk 1 "" "")))
        (CommandAction.mk "sh" [] OutputMode.Capture OutputMode.Capture [] none)).detail
      = none :=
  ⟨by decide, by decide⟩

/-- C6 amended: every `Error` result of `plan()` or `apply()` of the four
actions carries a nonempty human-readable detail, with one exception: a
Command `apply()` reporting a nonzero exit code attaches no detail when
there is no captured output text (whenever its `Error` carries no detail,
the process ran and exited nonzero; any detail it does carry is
nonempty). -/
theorem c6_amended_error_detail :
    (∀ (env : Env) (fs : FS) (a : RemoveAction),
      (RemoveAction.plan env fs a).status = ActionStatus.Error →
      ∃ d, (RemoveAction.plan env fs a).detail = some d ∧ d ≠ "")
    ∧ (∀ (env : Env) (fs : FS) (a : RemoveAction),
      (RemoveAction.apply env fs a).1.status = ActionStatus.Error →
      ∃ d, (RemoveAction.apply env fs a).1.detail = some d ∧ d ≠ "")
    ∧ (∀ (env : Env) (fs : FS) (a : SymlinkAction),
      (SymlinkAction.plan env fs a).status = ActionStatus.Error →
      ∃ d, (SymlinkAction.plan env fs a).detail = some d ∧ d ≠ "")
    ∧ (∀ (env : Env) (fs : FS) (a : SymlinkAction),
      (SymlinkAction.apply env fs a).1.status = ActionStatus.Error →
      ∃ d, (SymlinkAction.apply env fs a).1.detail = some d ∧ d ≠ "")
    ∧ (∀ (env : Env) (net : Net) (fs : FS) (a : DownloadAction),
      (DownloadAction.plan env net fs a).status = ActionStatus.Error →
      ∃ d, (DownloadAction.plan env net fs a).detail = some d ∧ d ≠ "")
    ∧ (∀ (env : Env) (net : Net) (fs : FS) (a : DownloadAction),
      (DownloadAction.apply env net fs a).1.status = ActionStatus.Error →
      ∃ d, (DownloadAction.apply env net fs a).1.detail = some d ∧ d ≠ "")
    ∧ (∀ (env : Env) (pr : ProcEnv) (a : CommandAction),
      (CommandAction.plan env pr a).status = ActionStatus.Error →
      ∃ d, (CommandAction.plan env pr a).detail = some d ∧ d ≠ "")
    ∧ (∀ (env : Env) (pr : ProcEnv) (a : CommandAction),
      (CommandAction.apply env pr a).status = ActionStatus.Error →
      (CommandAction.apply env pr a).detail = none →
      ∃ out, pr.run (CommandAction.spawnCfg env a) = Except.ok out ∧ out.code ≠ 0)
    ∧ (∀ (env : Env) (pr : ProcEnv) (a : CommandAction) (d : String),
      (CommandAction.apply env pr a).detail = some d → d ≠ "") := by
  refine ⟨?_, ?_, ?_, ?_, ?_, ?_, ?_, ?_, ?_⟩
  · intro env fs a h
    unfold RemoveAction.plan at h ⊢
    rcases remove_pre_cases env fs a with hc | hc | hc
    · rw [hc] at h
      exact absurd h (fun hh => ActionStatus.noConfusion hh)
    · exact ⟨_, by rw [hc], append_ne_empty_left _ _ (by decide)⟩
    · rw [hc] at h
      exact absurd h (fun hh => ActionStatus.noConfusion hh)
  · intro env fs a h
    rcases remove_apply_result_cases env fs a with hc | ⟨msg, hc⟩
    · rw [hc] at h ⊢
      rcases remove_pre_cases env fs a with hp | hp | hp
      · rw [hp] at h
        exact absurd h (fun hh => ActionStatus.noConfusion hh)
      · exact ⟨_, by rw [hp], append_ne_empty_left _ _ (by decide)⟩
      · rw [hp] at h
        exact absurd h (fun hh => ActionStatus.noConfusion hh)
    · exact ⟨_, by rw [hc], append_ne_empty_left _ _ (by decide)⟩
  · intro env fs a h
    unfold SymlinkAction.plan at h ⊢
    rcases symlink_pre_cases env fs a with hc | hc | hc | hc
    · rw [hc] at h
      exact absurd h (fun hh => ActionStatus.noConfusion hh)
    · exact ⟨_, by rw [hc], append_ne_empty_left _ _ (by decide)⟩
    · exact ⟨_, by rw [hc], append_ne_empty_left _ _ (by decide)⟩
    · rw [hc] at h
      exact absurd h (fun hh => ActionStatus.noConfusion hh)
  · intro env fs a h
    rcases symlink_apply_result_cases env fs a with hc | ⟨msg, hc⟩
    · rw [hc] at h ⊢
      rcases symlink_pre_cases env fs a with hp | hp | hp | hp
      · rw [hp] at h
        exact absurd h (fun hh => ActionStatus.noConfusion hh)
      · exact ⟨_, by rw [hp], append_ne_empty_left _ _ (by decide)⟩
      · exact ⟨_, by rw [hp], append_ne_empty_left _ _ (by decide)⟩
      · rw [hp] at h
        exact absurd h (fun hh => ActionStatus.noConfusion hh)
    · exact ⟨_, by rw [hc], append_ne_empty_left _ _ (by decide)⟩
  · intro env net fs a h
    unfold DownloadAction.plan at h ⊢
    rcases download_pre_cases env net fs a with hc | ⟨msg, hc⟩ | ⟨res, hc⟩ | hc | hc
    · exact ⟨_, by rw [hc], append_ne_empty_left _ _ (by decide)⟩
    · exact ⟨_, by rw [hc], append_ne_empty_left _ _ (by decide)⟩
    · exact ⟨_, by rw [hc], append3_ne_empty _ _ _ _ (by decide)⟩
    · rw [hc] at h
      exact absurd h (fun hh => ActionStatus.noConfusion hh)
    · rw [hc] at h
      exact absurd h (fun hh => ActionStatus.noConfusion hh)
  · intro env net fs a h
    rcases download_apply_result_cases env net fs a with hc | ⟨msg, hc⟩ | ⟨res, hc⟩ | hc
    · rw [hc] at h ⊢
      rcases download_pre_cases env net fs a with hp | ⟨msg, hp⟩ | ⟨res, hp⟩ | hp | hp
      · exact ⟨_, by rw [hp], append_ne_empty_left _ _ (by decide)⟩
      · exact ⟨_, by rw [hp], append_ne_empty_left _ _ (by decide)⟩
      · exact ⟨_, by rw [hp], append3_ne_empty _ _ _ _ (by decide)⟩
      · rw [hp] at h
        exact absurd h (fun hh => ActionStatus.noConfusion hh)
      · rw [hp] at h
        exact absurd h (fun hh => ActionStatus.noConfusion hh)
    · exact ⟨_, by rw [hc], append_ne_empty_left _ _ (by decide)⟩
    · exact ⟨_, by rw [hc], append3_ne_empty _ _ _ _ (by decide)⟩
    · rw [hc] at h
      exact absurd h (fun hh => ActionStatus.noConfusion hh)
  · intro env pr a h
    unfold CommandAction.plan at h ⊢
    rcases command_pre_cases env pr a with hc | hc
    · exact ⟨_, by rw [hc], append_ne_empty_left _ _ (by decide)⟩
    · rw [hc] at h
      exact absurd h (fun hh => ActionStatus.noConfusion hh)
  · intro env pr a h hd
    rcases command_apply_result_cases env pr a with hc | ⟨msg, hc⟩ | ⟨out, hrun, hc⟩
    · rw [hc] at h hd
      rcases command_pre_cases env pr a with hp | hp
      · rw [hp] at hd
        exact Option.noConfusion hd
      · rw [hp] at h
        exact absurd h (fun hh => ActionStatus.noConfusion hh)
    · rw [hc] at hd
      exact Option.noConfusion hd
    · refine ⟨out, hrun, ?_⟩
      rw [hc] at h
      by_cases hz : (out.code == 0) = true
      · rw [if_pos hz] at h
        exact absurd h (fun hh => ActionStatus.noConfusion hh)
      · intro hceq
        exact hz (by rw [hceq]; rfl)
  · intro env pr a d hd
    rcases command_apply_result_cases env pr a with hc | ⟨msg, hc⟩ | ⟨out, hrun, hc⟩
    · rw [hc] at hd
      rcases command_pre_cases env pr a with hp | hp
      · rw [hp] at hd
        have h2 := Option.some.inj hd
        rw [← h2]
        exact append_ne_empty_left _ _ (by decide)
      · rw [hp] at hd
        exact Option.noConfusion hd
    · rw [hc] at hd
      have h2 := Option.some.inj hd
      rw [← h2]
      exact append_ne_empty_left _ _ (by decide)
    · rw [hc] at hd
      unfold commandDetail at hd
      dsimp only at hd
      by_cases ht : strTrim
          ((if a.stdout == OutputMode.Capture && strTrim out.stdout != "" then
              "stdout:\n" ++ strTrim out.stdout ++ "\n" else "")
           ++ (if a.stderr == OutputMode.Capture && strTrim out.stderr != "" then
              "stderr:\n" ++ strTrim out.stderr ++ "\n" else "")) = ""
      · rw [if_pos ht] at hd
        exact Option.noConfusion hd
      · rw [if_neg ht] at hd
        have h2 := Option.some.inj hd
        rw [← h2]
        exact ht

/-- C6 witness: a Remove `plan()` error (directory without recursive), a
Download `apply()` error (failed GET) and a Command `apply()` error with
no detail (nonzero exit, empty captured output). -/
theorem c6_witness :
    (∃ d, (RemoveAction.plan cEnv [("/", Entry.dir), ("/dir", Entry.dir)]
        (RemoveAction.mk "/dir" false)).detail = some d ∧ d ≠ "")
    ∧ (∃ d, (DownloadAction.apply cEnv c2Net [("/", Entry.dir), ("/p", Entry.dir)]
        (DownloadAction.mk "u" "/p/f" false false)).1.detail = some d ∧ d ≠ "")
    ∧ (∃ out,
        (ProcEnv.mk (fun _ => true)
          (fun _ => Except.ok (ProcOutput.mk 1 "" ""))).run
          (CommandAction.spawnCfg cEnv
            (CommandAction.mk "sh" [] OutputMode.Capture OutputMode.Capture [] none))
          = Except.ok out
        ∧ out.code ≠ 0) :=
  ⟨c6_amended_error_detail.1 cEnv [("/", Entry.dir), ("/dir", Entry.dir)]
      (RemoveAction.mk "/dir" false) (by decide),
   c6_amended_error_detail.2.2.2.2.2.1 cEnv c2Net [("/", Entry.dir), ("/p", Entry.dir)]
      (DownloadAction.mk "u" "/p/f" false false) (by decide),
   c6_amended_error_detail.2.2.2.2.2.2.2.1 cEnv
      (ProcEnv.mk (fun _ => true) (fun _ => Except.ok (ProcOutput.mk 1 "" "")))
      (CommandAction.mk "sh" [] OutputMode.Capture OutputMode.Capture [] none)
      (by decide) (by decide)⟩

/-! ## C8 -/

/-- Process oracle for the concrete C8 scenario: exit code 0, stdout
"hello", stderr "world" (echo appends newlines, trimmed on capture). -/
def c8Pr : ProcEnv :=
  { whichOk := fun _ => true
    run := fun _ => Except.ok (ProcOutput.mk 0 "hello\n" "world\n") }

/-- The concrete C8 Command action: both streams captured. -/
def c8Cmd : CommandAction :=
  CommandAction.mk "echo" [] OutputMode.Capture OutputMode.Capture [] none

/-- C8: a missing executable yields `Error` at `plan()` already, with the
detail naming the missing command; after a successful preflight, `apply()`
reports `Success` on exit code 0 and `Error` on a nonzero exit, with the
captured stdout/stderr decoded, trimmed and attached to the detail under
`stdout:`/`stderr:` labels, only nonempty sections included
(`commandDetail`); concretely, exit 0 with captured stdout "hello" and
stderr "world" yields `Success` whose detail contains `stdout:` followed
by `hello` and `stderr:` followed by `world`. -/
theorem c8_command_plan_apply :
    (∀ (env : Env) (pr : ProcEnv) (a : CommandAction),
      pr.whichOk (expandTilde env.home a.cmd0) = false →
      CommandAction.plan env pr a
        = { status := ActionStatus.Error, detail := some ("Command not found: " ++ a.cmd0) })
    ∧ (∀ (env : Env) (pr : ProcEnv) (a : CommandAction) (out : ProcOutput),
      pr.whichOk (expandTilde env.home a.cmd0) = true →
      pr.run (CommandAction.spawnCfg env a) = Except.ok out →
      CommandAction.apply env pr a
        = ActionResult.mk
            (if out.code == 0 then ActionStatus.Success else ActionStatus.Error)
            (commandDetail a out)
      ∧ (out.code = 0 → (CommandAction.apply env pr a).status = ActionStatus.Success)
      ∧ (out.code ≠ 0 → (CommandAction.apply env pr a).status = ActionStatus.Error))
    ∧ (CommandAction.apply cEnv c8Pr c8Cmd
        = { status := ActionStatus.Success, detail := some "stdout:\nhello\nstderr:\nworld" }
      ∧ (∃ x y, "stdout:\nhello\nstderr:\nworld" = (x ++ "stdout:\nhello") ++ y)
      ∧ (∃ x y, "stdout:\nhello\nstderr:\nworld" = (x ++ "stderr:\nworld") ++ y)) := by
  refine ⟨?_, ?_, by decide, ⟨"", "\nstderr:\nworld", by decide⟩,
    ⟨"stdout:\nhello\n", "", by decide⟩⟩
  · intro env pr a hw
    unfold CommandAction.plan CommandAction.getPreflightResult
    rw [hw]
    rfl
  · intro env pr a out hw hrun
    have hpre : CommandAction.getPreflightResult env pr a
        = { status := ActionStatus.Success } := by
      unfold CommandAction.getPreflightResult
      rw [hw]
      rfl
    have happly : CommandAction.apply env pr a
        = ActionResult.mk
            (if out.code == 0 then ActionStatus.Success else ActionStatus.Error)
            (commandDetail a out) := by
      unfold CommandAction.apply
      rw [hpre]
      dsimp only
      rw [if_neg (fun hc => hc rfl)]
      rw [hrun]
      rfl
    refine ⟨happly, ?_, ?_⟩
    · intro hz
      rw [happly]
      have hz2 : (out.code == 0) = true := by rw [hz]; rfl
      rw [if_pos hz2]
    · intro hz
      rw [happly]
      have hz2 : ¬(out.code == 0) = true := by
        intro hbe
        exact hz (by simpa using hbe)
      rw [if_neg hz2]

/-- C8 witness: the missing-executable clause at a concrete oracle, and
the exit-code clause at the concrete hello/world process. -/
theorem c8_witness :
    CommandAction.plan cEnv (ProcEnv.mk (fun _ => false) (fun _ => Except.error "e"))
        (CommandAction.mk "ghostcmd" [] OutputMode.Capture OutputMode.Capture [] none)
      = { status := ActionStatus.Error, detail := some "Command not found: ghostcmd" }
    ∧ (CommandAction.apply cEnv c8Pr c8Cmd
        = ActionResult.mk
            (if (0 : Int) == 0 then ActionStatus.Success else ActionStatus.Error)
            (commandDetail c8Cmd (ProcOutput.mk 0 "hello\n" "world\n"))
      ∧ ((0 : Int) = 0 → (CommandAction.apply cEnv c8Pr c8Cmd).status = ActionStatus.Success)
      ∧ ((0 : Int) ≠ 0 → (CommandAction.apply cEnv c8Pr c8Cmd).status = ActionStatus.Error)) :=
  ⟨c8_command_plan_apply.1 cEnv (ProcEnv.mk (fun _ => false) (fun _ => Except.error "e"))
      (CommandAction.mk "ghostcmd" [] OutputMode.Capture OutputMode.Capture [] none) rfl,
   c8_command_plan_apply.2.1 cEnv c8Pr c8Cmd (ProcOutput.mk 0 "hello\n" "world\n") rfl rfl⟩

end Dotdep
